import Mathlib

/-!
Verification of the ubirch-protocol-go core: the UPP packet codec
(msgpack encode/decode of Signed and Chained packets), the protocol
engine (sign, SignHashExtended, Verify, per-identity chain state), and
the PKCS#11 backend logic (retry engine, error classifier, key store
existence checks, SetKey).

Byte strings are modelled as `List Nat` (each entry one byte).  The Go
code distinguishes nil slices from empty slices only in one place that
matters here: the ugorji msgpack encoder writes a nil byte slice as the
single nil byte 0xC0, and the repository only ever constructs packets
whose empty signature field is nil.  We therefore represent the Go nil
slice as the empty list and encode the empty list as 0xC0.
-/

namespace Ubirch

abbrev Bytes := List Nat

/-- length of a SHA256 hash (key_registration.go, constant expectedHashSize) -/
def expectedHashSize : Nat := 32

/-- length of a NIST P-256 signature -/
def nistp256SignatureLength : Nat := 64

/-- length of a NIST P-256 public key (X and Y coordinate, 32 bytes each) -/
def nistp256PubkeyLength : Nat := 64

/-- length of a signature plus msgpack header for byte array (0xc4XX) -/
def lenMsgpackSignatureElement : Nat := 2 + nistp256SignatureLength

/-- msgpack encoding of an unsigned integer as produced by the ugorji
encoder for the uint8-valued Version and Hint fields: a positive fixint
for values up to 0x7f, otherwise the uint8 format 0xCC. -/
def msgpUint8 (v : Nat) : Bytes :=
  if v ≤ 0x7f then [v] else [0xCC, v]

/-- msgpack bin encoding of a non-nil byte slice: bin8 / bin16 / bin32
depending on the length, with big-endian length bytes. -/
def msgpBin (b : Bytes) : Bytes :=
  if b.length < 256 then
    0xC4 :: b.length :: b
  else if b.length < 65536 then
    0xC5 :: (b.length / 256) :: (b.length % 256) :: b
  else
    0xC6 :: (b.length / 16777216 % 256) :: (b.length / 65536 % 256) ::
      (b.length / 256 % 256) :: (b.length % 256) :: b

/-- msgpack encoding of a byte-slice field that the repository passes as
a Go nil slice when absent: nil encodes as 0xC0, otherwise bin. -/
def msgpNilableBin (b : Bytes) : Bytes :=
  if b = [] then [0xC0] else msgpBin b

/-- SignedUPP is the Signed Ubirch Protocol Package
(fields in wire order, StructToArray). -/
structure SignedUPP where
  Version : Nat
  Uuid : Bytes
  Hint : Nat
  Payload : Bytes
  Signature : Bytes
deriving DecidableEq, Repr

/-- ChainedUPP is the Chained Ubirch Protocol Package. -/
structure ChainedUPP where
  Version : Nat
  Uuid : Bytes
  PrevSignature : Bytes
  Hint : Nat
  Payload : Bytes
  Signature : Bytes
deriving DecidableEq, Repr

/-- the UPP interface: a packet is either a Signed or a Chained package. -/
inductive UPP where
  | signed (u : SignedUPP)
  | chained (u : ChainedUPP)
deriving DecidableEq, Repr

def UPP.GetVersion : UPP → Nat
  | .signed u => u.Version
  | .chained u => u.Version

def UPP.GetUuid : UPP → Bytes
  | .signed u => u.Uuid
  | .chained u => u.Uuid

def UPP.GetPrevSignature : UPP → Bytes
  | .signed _ => []
  | .chained u => u.PrevSignature

def UPP.GetHint : UPP → Nat
  | .signed u => u.Hint
  | .chained u => u.Hint

def UPP.GetPayload : UPP → Bytes
  | .signed u => u.Payload
  | .chained u => u.Payload

def UPP.GetSignature : UPP → Bytes
  | .signed u => u.Signature
  | .chained u => u.Signature

/-- Encode encodes a UPP into MsgPack (ugorji codec, StructToArray):
a fixarray of the struct fields in order.  The uuid.UUID field always
marshals to its 16 raw bytes and is written as a bin byte string. -/
def Encode : UPP → Bytes
  | .signed u =>
      0x95 :: (msgpUint8 u.Version ++ msgpBin u.Uuid ++ msgpUint8 u.Hint ++
        msgpNilableBin u.Payload ++ msgpNilableBin u.Signature)
  | .chained u =>
      0x96 :: (msgpUint8 u.Version ++ msgpBin u.Uuid ++ msgpNilableBin u.PrevSignature ++
        msgpUint8 u.Hint ++ msgpNilableBin u.Payload ++ msgpNilableBin u.Signature)

/-- parse a msgpack fixarray header. -/
def parseArrayHeader : Bytes → Except String (Nat × Bytes)
  | [] => .error "empty input"
  | h :: rest =>
      if 0x90 ≤ h ∧ h ≤ 0x9f then .ok (h - 0x90, rest)
      else .error "expected msgpack array"

/-- parse a msgpack unsigned integer (positive fixint or uint8 format). -/
def parseUint : Bytes → Except String (Nat × Bytes)
  | [] => .error "truncated uint"
  | v :: rest =>
      if v ≤ 0x7f then .ok (v, rest)
      else if v = 0xCC then
        match rest with
        | [] => .error "truncated uint"
        | x :: r => .ok (x, r)
      else .error "expected msgpack uint"

/-- read exactly `n` bytes from the front of `b`. -/
def readBytesAt (b : Bytes) (n : Nat) : Except String (Bytes × Bytes) :=
  if n ≤ b.length then .ok (b.take n, b.drop n)
  else .error "truncated byte string"

/-- parse a msgpack byte string: nil (0xC0) decodes to the Go nil slice,
bin8 / bin16 / bin32 carry an explicit big-endian length. -/
def parseBin : Bytes → Except String (Bytes × Bytes)
  | [] => .error "truncated byte string"
  | t :: rest =>
      if t = 0xC0 then .ok ([], rest)
      else if t = 0xC4 then
        match rest with
        | [] => .error "truncated byte string"
        | n :: r => readBytesAt r n
      else if t = 0xC5 then
        match rest with
        | h :: l :: r => readBytesAt r (h * 256 + l)
        | _ => .error "truncated byte string"
      else if t = 0xC6 then
        match rest with
        | a :: b2 :: c :: d :: r => readBytesAt r (((a * 256 + b2) * 256 + c) * 256 + d)
        | _ => .error "truncated byte string"
      else .error "expected msgpack byte string"

/-- decoder for the Signed packet layout
[version][identity(16)][hint][payload][signature]; the uuid field must
be exactly 16 bytes (uuid.UnmarshalBinary). -/
def decodeSignedUPP (b : Bytes) : Except String SignedUPP :=
  match parseArrayHeader b with
  | .error e => .error e
  | .ok (n, r0) =>
    if n ≠ 5 then .error "unexpected msgpack array length for signed UPP" else
    match parseUint r0 with
    | .error e => .error e
    | .ok (ver, r1) =>
      match parseBin r1 with
      | .error e => .error e
      | .ok (uid, r2) =>
        if uid.length ≠ 16 then .error "invalid UUID length" else
        match parseUint r2 with
        | .error e => .error e
        | .ok (hint, r3) =>
          match parseBin r3 with
          | .error e => .error e
          | .ok (payload, r4) =>
            match parseBin r4 with
            | .error e => .error e
            | .ok (sig, _) => .ok ⟨ver, uid, hint, payload, sig⟩

/-- decoder for the Chained packet layout
[version][identity(16)][prevSignature][hint][payload][signature]. -/
def decodeChainedUPP (b : Bytes) : Except String ChainedUPP :=
  match parseArrayHeader b with
  | .error e => .error e
  | .ok (n, r0) =>
    if n ≠ 6 then .error "unexpected msgpack array length for chained UPP" else
    match parseUint r0 with
    | .error e => .error e
    | .ok (ver, r1) =>
      match parseBin r1 with
      | .error e => .error e
      | .ok (uid, r2) =>
        if uid.length ≠ 16 then .error "invalid UUID length" else
        match parseBin r2 with
        | .error e => .error e
        | .ok (prevSig, r3) =>
          match parseUint r3 with
          | .error e => .error e
          | .ok (hint, r4) =>
            match parseBin r4 with
            | .error e => .error e
            | .ok (payload, r5) =>
              match parseBin r5 with
              | .error e => .error e
              | .ok (sig, _) => .ok ⟨ver, uid, prevSig, hint, payload, sig⟩

/-- Decode decodes raw protocol package data into a UPP: it rejects nil
or too-short input, then dispatches on the version tag byte at offset 1
(0x22 Signed, 0x23 Chained), any other tag value is a decode error. -/
def Decode (upp : Bytes) : Except String UPP :=
  if upp.length < 2 then .error "input nil or invalid length"
  else
    match upp[1]? with
    | some 0x22 => (decodeSignedUPP upp).map .signed
    | some 0x23 => (decodeChainedUPP upp).map .chained
    | _ => .error "invalid protocol version"

/-- appendSignature appends a signature to an encoded message using the
fixed byte-array framing 0xC4, length; returns nil (here: none) if the
data or the signature is empty. -/
def appendSignature (data : Bytes) (signature : Bytes) : Option Bytes :=
  if data = [] ∨ signature = [] then none
  else some (data ++ 0xC4 :: (signature.length % 256) :: signature)

/-- the per-identity chain state: the Protocol structure field
Signatures, a map from identity (16 uuid bytes) to last signature. -/
def SigMap := Bytes → Option Bytes

/-- Go map assignment p.Signatures[id] = sig. -/
def SigMap.insert (m : SigMap) (id : Bytes) (sig : Bytes) : SigMap :=
  fun u => if u = id then some sig else m u

/-- the Signer capability: Crypto.Sign(id, data) of the injected
backend, modelled as an explicit function argument. -/
def Signer := Bytes → Bytes → Except String Bytes

/-- the name resolver: Crypto.GetUUID(name). -/
def UuidResolver := String → Except String Bytes

/-- Protocol.sign: encode the packet, drop the trailing byte (the
empty-signature framing byte), sign the remaining bytes via the Signer
capability keyed by the packet identity, require a 64-byte signature,
append it with the byte-array framing, and record the signature in the
chain state when the version field is Chained (0x23).  Returns the
result together with the (possibly updated) Signatures map. -/
def Protocol.sign (signer : Signer) (signatures : SigMap) (upp : UPP) :
    Except String Bytes × SigMap :=
  let encoded := Encode upp
  let uppWithoutSig := encoded.dropLast
  match signer upp.GetUuid uppWithoutSig with
  | .error e => (.error e, signatures)
  | .ok signature =>
    if signature.length ≠ nistp256SignatureLength then
      (.error "generated signature has invalid length", signatures)
    else
      match appendSignature uppWithoutSig signature with
      | none => (.error "appending signature to UPP data failed", signatures)
      | some uppWithSig =>
        (.ok uppWithSig,
          if upp.GetVersion = 0x23 then signatures.insert upp.GetUuid signature
          else signatures)

/-- Protocol.SignHashExtended: require a 32-byte hash, resolve the
identity, then build and sign a Signed (0x22) or Chained (0x23) packet;
for Chained, an absent chain-state entry is replaced by 64 zero bytes
(chain genesis) and a present entry must be exactly 64 bytes.  Any
other version value fails. -/
def Protocol.SignHashExtended (getUUID : UuidResolver) (signer : Signer)
    (signatures : SigMap) (name : String) (hash : Bytes) (protocol : Nat) (hint : Nat) :
    Except String Bytes × SigMap :=
  if hash.length ≠ expectedHashSize then
    (.error "invalid hash size", signatures)
  else
    match getUUID name with
    | .error e => (.error e, signatures)
    | .ok id =>
      if protocol = 0x22 then
        Protocol.sign signer signatures (.signed ⟨0x22, id, hint, hash, []⟩)
      else if protocol = 0x23 then
        match signatures id with
        | none =>
            Protocol.sign signer signatures
              (.chained ⟨0x23, id, List.replicate nistp256SignatureLength 0, hint, hash, []⟩)
        | some prevSignature =>
            if prevSignature.length ≠ nistp256SignatureLength then
              (.error "invalid last signature, cannot create chained UPP", signatures)
            else
              Protocol.sign signer signatures
                (.chained ⟨0x23, id, prevSignature, hint, hash, []⟩)
      else (.error "invalid protocol version", signatures)

/-- the Verifier capability: Crypto.Verify(id, value, signature)
returning a boolean and a Go error. -/
def Verifier := Bytes → Bytes → Bytes → Bool × Option String

/-- Protocol.Verify: require strictly more bytes than the framed
signature element (66), resolve the identity, then delegate to the
Verifier capability with the input minus the trailing 66 bytes as the
signed data and the trailing 64 bytes as the signature. -/
def Protocol.Verify (getUUID : UuidResolver) (verifier : Verifier)
    (name : String) (upp : Bytes) : Bool × Option String :=
  if upp.length ≤ lenMsgpackSignatureElement then
    (false, some "input not verifiable, not enough data")
  else
    match getUUID name with
    | .error e => (false, some e)
    | .ok id =>
        verifier id (upp.take (upp.length - lenMsgpackSignatureElement))
          (upp.drop (upp.length - nistp256SignatureLength))

/-- a valid packet in the sense of the round-trip property: all fields
present, the version tag matching the variant, a 16-byte identity, a
64-byte signature (and previous signature), and a payload small enough
for the msgpack bin32 length field. -/
def ValidPacket : UPP → Prop
  | .signed u => u.Version = 0x22 ∧ u.Uuid.length = 16 ∧ u.Signature.length = 64 ∧
      u.Payload.length < 4294967296
  | .chained u => u.Version = 0x23 ∧ u.Uuid.length = 16 ∧ u.PrevSignature.length = 64 ∧
      u.Signature.length = 64 ∧ u.Payload.length < 4294967296

instance (p : UPP) : Decidable (ValidPacket p) := by
  cases p <;> simp only [ValidPacket] <;> infer_instance

/-! ### PKCS#11 backend: error classifier and retry engine -/

/-- a Go error value as seen by pkcs11Retry: either a pkcs11.Error
(a device return code) or an error of any other type. -/
inductive GoError where
  | pkcs11Err (code : Nat)
  | otherErr (msg : String)
deriving DecidableEq, Repr

/-- the three-way bucket a device return code falls into in
pkcs11HandleGenericErrors (the CKR code values are the PKCS#11 standard
values used by the miekg/pkcs11 package). -/
inductive HandleClass where
  | transient
  | deviceRemoved
  | sessionReset
  | fatal
  | unknown
deriving DecidableEq, Repr

/-- classification of the switch in pkcs11HandleGenericErrors.
Transient (wait and retry): CKR_HOST_MEMORY 0x02, CKR_FUNCTION_FAILED 0x06,
CKR_DATA_INVALID 0x20, CKR_DATA_LEN_RANGE 0x21, CKR_DEVICE_ERROR 0x30,
CKR_DEVICE_MEMORY 0x31, CKR_ENCRYPTED_DATA_INVALID 0x40,
CKR_ENCRYPTED_DATA_LEN_RANGE 0x41, CKR_KEY_SIZE_RANGE 0x62,
CKR_KEY_INDIGESTIBLE 0x67, CKR_SESSION_COUNT 0xB1,
CKR_SIGNATURE_INVALID 0xC0, CKR_SIGNATURE_LEN_RANGE 0xC1,
CKR_TOKEN_NOT_PRESENT 0xE0, CKR_USER_TOO_MANY_TYPES 0x105,
CKR_WRAPPED_KEY_INVALID 0x110, CKR_WRAPPED_KEY_LEN_RANGE 0x112,
CKR_PUBLIC_KEY_INVALID 0x1B9.
Device removed (wait, then session reset): CKR_DEVICE_REMOVED 0x32.
Session reset: CKR_OPERATION_ACTIVE 0x90, CKR_OPERATION_NOT_INITIALIZED 0x91,
CKR_SESSION_CLOSED 0xB0, CKR_SESSION_HANDLE_INVALID 0xB3,
CKR_SESSION_EXISTS 0xB6, CKR_USER_ALREADY_LOGGED_IN 0x100,
CKR_USER_NOT_LOGGED_IN 0x101, 0x190, 0x191 (cryptoki not / already set up).
Everything in the long unfixable list is fatal; codes outside the
enumeration are unknown (a hard error). -/
def pkcs11HandleClass (code : Nat) : HandleClass :=
  match code with
  | 0x02 | 0x06 | 0x20 | 0x21 | 0x30 | 0x31 | 0x40 | 0x41 | 0x62 | 0x67
  | 0xB1 | 0xC0 | 0xC1 | 0xE0 | 0x105 | 0x110 | 0x112 | 0x1B9 => .transient
  | 0x32 => .deviceRemoved
  | 0x90 | 0x91 | 0xB0 | 0xB3 | 0xB6 | 0x100 | 0x101 | 0x190 | 0x191 => .sessionReset
  | 0x05 | 0x07 | 0x03 | 0x08 | 0x09 | 0x0A | 0x10 | 0x11 | 0x12 | 0x13
  | 0x1B | 0x50 | 0x51 | 0x54 | 0x60 | 0x63 | 0x64 | 0x65 | 0x66 | 0x68
  | 0x69 | 0x6A | 0x70 | 0x71 | 0x82 | 0xA0 | 0xA1 | 0xA2 | 0xA3 | 0xA4
  | 0xB4 | 0xB5 | 0xB7 | 0xB8 | 0xD0 | 0xD1 | 0xE1 | 0xE2 | 0xF0 | 0xF1
  | 0xF2 | 0x102 | 0x103 | 0x104 | 0x113 | 0x114 | 0x115 | 0x120 | 0x121
  | 0x130 | 0x140 | 0x150 | 0x160 | 0x170 | 0x180 | 0x1A0 | 0x1A1 | 0x1B0
  | 0x1B1 | 0x1B5 | 0x1B6 | 0x1B7 | 0x1B8 | 0x200 | 0x80000000 => .fatal
  | _ => .unknown

/-- observable side effects of one pass through the error handler. -/
inductive RetryAction where
  | sleepWait
  | sessionResetAct
deriving DecidableEq, Repr

/-- pkcs11HandleGenericErrors: CKR_OK returns nil immediately; a
transient code sleeps (delay plus jitter) and reports retry; device
removed sleeps, then falls through to the session reset; a session
class code tears the session down and sets it up again (session
teardown and setup are device calls outside this model and are taken to
succeed); a fatal code returns the original error unchanged; an
unenumerated code returns a fresh non-pkcs11 error.  The returned pair
is (error result, trace of side effects). -/
def pkcs11HandleGenericErrors (code : Nat) : Option GoError × List RetryAction :=
  if code = 0 then (none, [])
  else
    match pkcs11HandleClass code with
    | .transient => (none, [.sleepWait])
    | .deviceRemoved => (none, [.sleepWait, .sessionResetAct])
    | .sessionReset => (none, [.sessionResetAct])
    | .fatal => (some (.pkcs11Err code), [])
    | .unknown => (some (.otherErr "pkcs11HandleGenericErrors: do not know how to handle error"), [])

/-- the result of pkcs11Retry, keeping the structure of the wrapped
fmt.Errorf values: success, gave-up-after-retries carrying the last
underlying error, unfixable carrying the error the handler returned, or
the programming-contract violation for a non-pkcs11 error type. -/
inductive RetryResult where
  | ok
  | gaveUp (retries : Nat) (lastErr : GoError)
  | unfixable (e : GoError)
  | nonPkcs11Contract
deriving DecidableEq, Repr

/-- the retry loop of pkcs11Retry.  `f k` is the outcome of the k-th
invocation of the wrapped operation (none = success); `budget` is
maxRetries minus the number of retries already made, so the Go
condition retries >= maxRetries is budget = 0.  The Go loop first
invokes the operation, returns on success, then checks the retry
budget, then type-checks the error and runs the generic handler: a
non-nil handler result aborts as unfixable, otherwise the loop
continues.  The action trace collects the sleeps and session resets. -/
def pkcs11RetryGo (f : Nat → Option GoError) : Nat → Nat → RetryResult × List RetryAction
  | k, 0 =>
    match f k with
    | none => (.ok, [])
    | some err => (.gaveUp k err, [])
  | k, budget + 1 =>
    match f k with
    | none => (.ok, [])
    | some (.otherErr _) => (.nonPkcs11Contract, [])
    | some (.pkcs11Err code) =>
      match pkcs11HandleGenericErrors code with
      | (some e2, acts) => (.unfixable e2, acts)
      | (none, acts) =>
        let r := pkcs11RetryGo f (k + 1) budget
        (r.1, acts ++ r.2)

/-- pkcs11Retry with a maximum retry count (the delay argument only
feeds the sleep calls, which the trace records abstractly). -/
def pkcs11Retry (maxRetries : Nat) (f : Nat → Option GoError) :
    RetryResult × List RetryAction :=
  pkcs11RetryGo f 0 maxRetries

/-! ### PKCS#11 backend: key store -/

/-- pkcs11 object class constants CKO_PUBLIC_KEY and CKO_PRIVATE_KEY. -/
def CKO_PUBLIC_KEY : Nat := 2

def CKO_PRIVATE_KEY : Nat := 3

/-- the device query pkcs11GetObjects(id, class, max): returns object
handles or a device error; modelled as an explicit function argument
(the query is already routed through the retry engine in the source). -/
def ObjectFinder := Bytes → Nat → Nat → Except String (List Nat)

/-- PrivateKeyExists: query up to 5 private-key objects for the uuid
bytes; a query error conservatively reports (true, error), one match is
(true, nil), zero matches (false, nil), two or more matches is a
consistency error reported as (true, error). -/
def PrivateKeyExists (getObjects : ObjectFinder) (id : Bytes) : Bool × Option String :=
  match getObjects id CKO_PRIVATE_KEY 5 with
  | .error e => (true, some ("getting object failed: " ++ e))
  | .ok objects =>
    if objects.length = 1 then (true, none)
    else if objects.length = 0 then (false, none)
    else (true, some "found two or more private keys for the UUID, this should never happen")

/-- PublicKeyExists: same shape as PrivateKeyExists for public-key
objects (the query error is passed through unwrapped). -/
def PublicKeyExists (getObjects : ObjectFinder) (id : Bytes) : Bool × Option String :=
  match getObjects id CKO_PUBLIC_KEY 5 with
  | .error e => (true, some e)
  | .ok objects =>
    if objects.length = 1 then (true, none)
    else if objects.length = 0 then (false, none)
    else (true, some "found two or more public keys for the UUID, this should never happen")

/-! ### NIST P-256 arithmetic (crypto/elliptic ScalarBaseMult) -/

/-- the P-256 field prime. -/
def p256P : Nat := 0xffffffff00000001000000000000000000000000ffffffffffffffffffffffff

/-- the P-256 curve order (curveOrder = privKey.PublicKey.Curve.Params().N). -/
def p256N : Nat := 0xffffffff00000000ffffffffffffffffbce6faada7179e84f3b9cac2fc632551

/-- the P-256 base point x coordinate. -/
def p256Gx : Nat := 0x6b17d1f2e12c4247f8bce6e563a440f277037d812deb33a0f4a13945d898c296

/-- the P-256 base point y coordinate. -/
def p256Gy : Nat := 0x4fe342e2fe1a7f9b8ee7eb4a7c0f9e162bce33576b315ececbb6406837bf51f5

/-- the P-256 curve parameter a = -3 mod p. -/
def p256A : Nat := p256P - 3

/-- modular inverse via the extended euclidean algorithm. -/
def modInv (a m : Nat) : Nat :=
  ((Nat.gcdA a m) % (m : Int)).toNat

/-- an affine curve point; none is the point at infinity. -/
def ECPoint := Option (Nat × Nat)

/-- affine short-Weierstrass point addition on P-256. -/
def padd (P Q : ECPoint) : ECPoint :=
  match P, Q with
  | none, q => q
  | some p, none => some p
  | some (x1, y1), some (x2, y2) =>
    if x1 % p256P = x2 % p256P then
      if (y1 + y2) % p256P = 0 then none
      else
        let l := ((3 * x1 * x1 + p256A) * modInv (2 * y1 % p256P) p256P) % p256P
        let x3 := (l * l + 2 * p256P * p256P - x1 - x2) % p256P
        let y3 := (l * (x1 + p256P * p256P - x3) + p256P * p256P * p256P - y1) % p256P
        some (x3, y3)
    else
      let l := ((y2 + p256P - y1 % p256P) * modInv ((x2 + p256P - x1 % p256P) % p256P) p256P) % p256P
      let x3 := (l * l + 2 * p256P * p256P - x1 - x2) % p256P
      let y3 := (l * (x1 + p256P * p256P - x3) + p256P * p256P * p256P - y1) % p256P
      some (x3, y3)

/-- double-and-add scalar multiplication. -/
def pmul (k : Nat) (P : ECPoint) : ECPoint :=
  if k = 0 then none
  else
    let half := pmul (k / 2) P
    let dbl := padd half half
    if k % 2 = 1 then padd dbl P else dbl
decreasing_by exact Nat.div_lt_self (Nat.pos_of_ne_zero (by assumption)) (by omega)

/-- crypto/elliptic ScalarBaseMult: multiply the base point by the
scalar; the point at infinity is returned as (0, 0). -/
def scalarBaseMult (d : Nat) : Nat × Nat :=
  match pmul d (some (p256Gx, p256Gy)) with
  | none => (0, 0)
  | some (x, y) => (x, y)

/-- big.Int FillBytes: the fixed-width big-endian byte encoding. -/
def natToBytesBE : Nat → Nat → Bytes
  | 0, _ => []
  | w + 1, n => natToBytesBE w (n / 256) ++ [n % 256]

/-- big.Int SetBytes: interpret bytes as a big-endian integer. -/
def natFromBytesBE (b : Bytes) : Nat :=
  b.foldl (fun acc x => acc * 256 + x) 0

/-- the uuid.Nil value (16 zero bytes). -/
def uuidNil : Bytes := List.replicate 16 0

/-- a key object written to the HSM by a CreateObject call: the public
key object carries the DER-headed CKA_EC_POINT, the private key object
the 32-byte CKA_VALUE scalar. -/
inductive HsmObject where
  | pubKeyObj (id : Bytes) (ecPoint : Bytes)
  | privKeyObj (id : Bytes) (value : Bytes)
deriving DecidableEq, Repr

/-- the outcome of the n-th CreateObject device call (already retried);
none is success. -/
def ObjectCreator := Nat → Option String

/-- SetKey(id, privKeyBytes): require a 32-byte scalar and a non-nil
uuid; fail if a private or public key object already exists (or the
existence check errors); derive the public point by scalar
multiplication of the base point; fail if the scalar is greater or
equal the curve order; then create the public key object (DER header
0x04, 65, 0x04 followed by X and Y padded to 32 bytes) and the private
key object on the device, public first.  The second component is the
list of objects actually created on the device. -/
def SetKey (getObjects : ObjectFinder) (createObject : ObjectCreator)
    (id : Bytes) (privKeyBytes : Bytes) : Except String Unit × List HsmObject :=
  if privKeyBytes.length ≠ 32 then
    (.error "unexpected length for ECDSA private key", [])
  else if id = uuidNil then
    (.error "UUID Nil-value", [])
  else
    match PrivateKeyExists getObjects id with
    | (_, some e) => (.error ("SetKey: checking for private key existence failed: " ++ e), [])
    | (true, none) => (.error "SetKey: private key already exists", [])
    | (false, none) =>
      match PublicKeyExists getObjects id with
      | (_, some e) => (.error ("SetKey: checking public key existence failed: " ++ e), [])
      | (true, none) => (.error "SetKey: public key already exists", [])
      | (false, none) =>
        let d := natFromBytesBE privKeyBytes
        let pub := scalarBaseMult d
        if p256N ≤ d then
          (.error "SetKey: invalid private key value: value is greater or equal curve order", [])
        else
          let pubKeyBytesHSM :=
            0x04 :: (nistp256PubkeyLength + 1) :: 0x04 ::
              (natToBytesBE 32 pub.1 ++ natToBytesBE 32 pub.2)
          match createObject 0 with
          | some e => (.error ("SetKey: failed to set public key: " ++ e), [])
          | none =>
            match createObject 1 with
            | some e =>
                (.error ("SetKey: failed to set private key: " ++ e),
                  [.pubKeyObj id pubKeyBytesHSM])
            | none =>
                (.ok (),
                  [.pubKeyObj id pubKeyBytesHSM, .privKeyObj id (natToBytesBE 32 d)])

/-! ### codec lemmas -/

theorem parseUint_msgpUint8 (v : Nat) (rest : Bytes) :
    parseUint (msgpUint8 v ++ rest) = .ok (v, rest) := by
  by_cases h : v ≤ 0x7f
  · simp [msgpUint8, parseUint, h]
  · simp [msgpUint8, parseUint, h]

theorem readBytesAt_append (b rest : Bytes) :
    readBytesAt (b ++ rest) b.length = .ok (b, rest) := by
  simp [readBytesAt, List.take_left, List.drop_left]

theorem parseBin_msgpBin (b rest : Bytes) (h : b.length < 4294967296) :
    parseBin (msgpBin b ++ rest) = .ok (b, rest) := by
  by_cases h1 : b.length < 256
  · simpa [msgpBin, parseBin, h1] using readBytesAt_append b rest
  · by_cases h2 : b.length < 65536
    · have e : b.length / 256 * 256 + b.length % 256 = b.length := by omega
      simp only [msgpBin, h1, h2, if_false, if_true, ite_true, ite_false, List.cons_append]
      simp only [parseBin]
      norm_num
      rw [e]
      exact readBytesAt_append b rest
    · have e : ((b.length / 16777216 % 256 * 256 + b.length / 65536 % 256) * 256 +
          b.length / 256 % 256) * 256 + b.length % 256 = b.length := by omega
      simp only [msgpBin, h1, h2, if_false, ite_false, List.cons_append]
      simp only [parseBin]
      norm_num
      rw [e]
      exact readBytesAt_append b rest

theorem parseBin_msgpNilableBin (b rest : Bytes) (h : b.length < 4294967296) :
    parseBin (msgpNilableBin b ++ rest) = .ok (b, rest) := by
  by_cases hb : b = []
  · subst hb; simp [msgpNilableBin, parseBin]
  · rw [msgpNilableBin, if_neg hb]; exact parseBin_msgpBin b rest h

theorem parseArrayHeader_cons (h : Nat) (rest : Bytes) (hl : 0x90 ≤ h) (hh : h ≤ 0x9f) :
    parseArrayHeader (h :: rest) = .ok (h - 0x90, rest) := by
  simp [parseArrayHeader, hl, hh]

theorem decodeSignedUPP_encode (u : SignedUPP) (hu : u.Uuid.length = 16)
    (hp : u.Payload.length < 4294967296) (hs : u.Signature.length < 4294967296) :
    decodeSignedUPP (Encode (.signed u)) = .ok u := by
  have e : Encode (.signed u) = 0x95 :: (msgpUint8 u.Version ++ (msgpBin u.Uuid ++
      (msgpUint8 u.Hint ++ (msgpNilableBin u.Payload ++ msgpNilableBin u.Signature)))) := by
    simp [Encode]
  rw [decodeSignedUPP, e, parseArrayHeader_cons _ _ (by norm_num) (by norm_num)]
  norm_num
  rw [parseUint_msgpUint8]
  simp only []
  rw [parseBin_msgpBin _ _ (by omega)]
  simp only []
  rw [parseUint_msgpUint8]
  simp only []
  rw [parseBin_msgpNilableBin _ _ hp]
  simp only []
  rw [show msgpNilableBin u.Signature = msgpNilableBin u.Signature ++ [] by simp]
  rw [parseBin_msgpNilableBin _ _ hs]
  simp [hu]

theorem decodeChainedUPP_encode (u : ChainedUPP) (hu : u.Uuid.length = 16)
    (hv : u.PrevSignature.length < 4294967296) (hp : u.Payload.length < 4294967296)
    (hs : u.Signature.length < 4294967296) :
    decodeChainedUPP (Encode (.chained u)) = .ok u := by
  have e : Encode (.chained u) = 0x96 :: (msgpUint8 u.Version ++ (msgpBin u.Uuid ++
      (msgpNilableBin u.PrevSignature ++ (msgpUint8 u.Hint ++
        (msgpNilableBin u.Payload ++ msgpNilableBin u.Signature))))) := by
    simp [Encode]
  rw [decodeChainedUPP, e, parseArrayHeader_cons _ _ (by norm_num) (by norm_num)]
  norm_num
  rw [parseUint_msgpUint8]
  simp only []
  rw [parseBin_msgpBin _ _ (by omega)]
  simp only []
  rw [parseBin_msgpNilableBin _ _ hv]
  simp only []
  rw [parseUint_msgpUint8]
  simp only []
  rw [parseBin_msgpNilableBin _ _ hp]
  simp only []
  rw [show msgpNilableBin u.Signature = msgpNilableBin u.Signature ++ [] by simp]
  rw [parseBin_msgpNilableBin _ _ hs]
  simp [hu]

theorem Decode_Encode_signed (u : SignedUPP) (hver : u.Version = 0x22)
    (hu : u.Uuid.length = 16) (hp : u.Payload.length < 4294967296)
    (hs : u.Signature.length < 4294967296) :
    Decode (Encode (.signed u)) = .ok (.signed u) := by
  have e : Encode (.signed u) = 0x95 :: 0x22 :: (msgpBin u.Uuid ++
      (msgpUint8 u.Hint ++ (msgpNilableBin u.Payload ++ msgpNilableBin u.Signature))) := by
    simp [Encode, hver, msgpUint8]
  rw [Decode]
  rw [if_neg (by rw [e]; simp)]
  have h1 : (Encode (.signed u))[1]? = some 0x22 := by rw [e]; simp
  rw [h1]
  rw [decodeSignedUPP_encode u hu hp hs]
  rfl

theorem Decode_Encode_chained (u : ChainedUPP) (hver : u.Version = 0x23)
    (hu : u.Uuid.length = 16) (hv : u.PrevSignature.length < 4294967296)
    (hp : u.Payload.length < 4294967296) (hs : u.Signature.length < 4294967296) :
    Decode (Encode (.chained u)) = .ok (.chained u) := by
  have e : Encode (.chained u) = 0x96 :: 0x23 :: (msgpBin u.Uuid ++
      (msgpNilableBin u.PrevSignature ++ (msgpUint8 u.Hint ++
        (msgpNilableBin u.Payload ++ msgpNilableBin u.Signature)))) := by
    simp [Encode, hver, msgpUint8]
  rw [Decode]
  rw [if_neg (by rw [e]; simp)]
  have h1 : (Encode (.chained u))[1]? = some 0x23 := by rw [e]; simp
  rw [h1]
  rw [decodeChainedUPP_encode u hu hv hp hs]
  rfl


/-- C1: for every valid Signed or Chained UPP packet (all fields
present, identity 16 bytes, signature 64 bytes, and the version tag of
its variant), Decode of Encode succeeds and returns the packet
field-for-field. -/
theorem C1_decode_encode_roundtrip (p : UPP) (h : ValidPacket p) :
    Decode (Encode p) = .ok p := by
  cases p with
  | signed u =>
      obtain ⟨h1, h2, h3, h4⟩ := h
      exact Decode_Encode_signed u h1 h2 h4 (by omega)
  | chained u =>
      obtain ⟨h1, h2, h3, h4, h5⟩ := h
      exact Decode_Encode_chained u h1 h2 (by omega) h5 (by omega)

set_option maxRecDepth 4000 in
theorem C1_decode_encode_roundtrip_witness :
    ValidPacket (.signed ⟨0x22, List.range 16, 0, List.replicate 32 7, List.replicate 64 9⟩) ∧
    Decode (Encode (.signed ⟨0x22, List.range 16, 0, List.replicate 32 7, List.replicate 64 9⟩)) =
      .ok (.signed ⟨0x22, List.range 16, 0, List.replicate 32 7, List.replicate 64 9⟩) :=
  ⟨by decide, C1_decode_encode_roundtrip _ (by decide)⟩

/-- C6: Decode is a total function (so it never panics); it returns a
decode error on nil or shorter-than-2-byte input, dispatches on the tag
byte at offset 1 (0x22 to the Signed decoder, 0x23 to the Chained
decoder, whose parsers fail on structurally incomplete input), and
returns a decode error for every other tag value. -/
theorem C6_decode_total_dispatch :
    (∀ b : Bytes, b.length < 2 → Decode b = .error "input nil or invalid length") ∧
    (∀ b : Bytes, 2 ≤ b.length → b[1]? = some 0x22 →
      Decode b = (decodeSignedUPP b).map .signed) ∧
    (∀ b : Bytes, 2 ≤ b.length → b[1]? = some 0x23 →
      Decode b = (decodeChainedUPP b).map .chained) ∧
    (∀ b : Bytes, ∀ v : Nat, 2 ≤ b.length → b[1]? = some v → v ≠ 0x22 → v ≠ 0x23 →
      Decode b = .error "invalid protocol version") := by
  refine ⟨fun b hb => ?_, fun b hb h1 => ?_, fun b hb h1 => ?_, fun b v hb h1 h22 h23 => ?_⟩
  · rw [Decode, if_pos hb]
  · rw [Decode, if_neg (by omega), h1]
  · rw [Decode, if_neg (by omega), h1]
  · rw [Decode, if_neg (by omega), h1]
    split <;> simp_all

theorem C6_decode_total_dispatch_witness :
    Decode [0x95] = .error "input nil or invalid length" ∧
    Decode [0x95, 0x30, 0x00] = .error "invalid protocol version" :=
  ⟨C6_decode_total_dispatch.1 [0x95] (by decide),
   C6_decode_total_dispatch.2.2.2 [0x95, 0x30, 0x00] 0x30 (by decide) rfl (by decide) (by decide)⟩


theorem encode_length_ge_two (p : UPP) : 2 ≤ (Encode p).length := by
  cases p <;> simp [Encode, msgpUint8] <;> split <;> simp <;> omega

theorem encode_emptySig (p : UPP) (h : p.GetSignature = []) :
    Encode p = (Encode p).dropLast ++ [0xC0] := by
  cases p with
  | signed u =>
      have hsig : u.Signature = [] := h
      have e1 : Encode (.signed u) = (0x95 :: (msgpUint8 u.Version ++ msgpBin u.Uuid ++
          msgpUint8 u.Hint ++ msgpNilableBin u.Payload)) ++ [0xC0] := by
        simp [Encode, hsig, msgpNilableBin, List.append_assoc]
      rw [e1, List.dropLast_concat]
  | chained u =>
      have hsig : u.Signature = [] := h
      have e1 : Encode (.chained u) = (0x96 :: (msgpUint8 u.Version ++ msgpBin u.Uuid ++
          msgpNilableBin u.PrevSignature ++ msgpUint8 u.Hint ++ msgpNilableBin u.Payload)) ++ [0xC0] := by
        simp [Encode, hsig, msgpNilableBin, List.append_assoc]
      rw [e1, List.dropLast_concat]

theorem encode_dropLast_ne_nil (p : UPP) : (Encode p).dropLast ≠ [] := by
  have h := encode_length_ge_two p
  have : (Encode p).dropLast.length = (Encode p).length - 1 := List.length_dropLast _
  intro hc
  rw [hc] at this
  simp at this
  omega

/-- C2: for a packet with empty signature field, Protocol.sign encodes
the packet, drops exactly the single trailing empty-signature framing
byte 0xC0, signs the remaining bytes with the Signer capability for the
packet identity, fails if that signature is not exactly 64 bytes, and
otherwise returns the remaining bytes followed by the framing bytes
0xC4 0x40 and the 64 signature bytes. -/
theorem C2_protocol_sign (upp : UPP) (h : upp.GetSignature = [])
    (signer : Signer) (sigs : SigMap) :
    (Encode upp = (Encode upp).dropLast ++ [0xC0]) ∧
    (∀ e, signer upp.GetUuid (Encode upp).dropLast = .error e →
      (Protocol.sign signer sigs upp).1 = .error e) ∧
    (∀ sig, signer upp.GetUuid (Encode upp).dropLast = .ok sig → sig.length ≠ 64 →
      (Protocol.sign signer sigs upp).1 = .error "generated signature has invalid length") ∧
    (∀ sig, signer upp.GetUuid (Encode upp).dropLast = .ok sig → sig.length = 64 →
      (Protocol.sign signer sigs upp).1 = .ok ((Encode upp).dropLast ++ 0xC4 :: 0x40 :: sig)) := by
  refine ⟨encode_emptySig upp h, fun e he => ?_, fun sig hs hlen => ?_, fun sig hs hlen => ?_⟩
  · simp only [Protocol.sign, he]
  · simp only [Protocol.sign, hs]
    rw [if_pos (by simpa [nistp256SignatureLength] using hlen)]
  · simp only [Protocol.sign, hs]
    rw [if_neg (by simp [nistp256SignatureLength, hlen])]
    have hne : sig ≠ [] := by
      intro hc; rw [hc] at hlen; simp at hlen
    rw [appendSignature, if_neg (by simp [encode_dropLast_ne_nil upp, hne])]
    simp [hlen]

theorem C2_protocol_sign_witness :
    (Protocol.sign (fun _ _ => .ok (List.replicate 64 3)) (fun _ => none)
      (.signed ⟨0x22, List.range 16, 0, [1, 2], []⟩)).1 =
      .ok ((Encode (.signed ⟨0x22, List.range 16, 0, [1, 2], []⟩)).dropLast ++
        0xC4 :: 0x40 :: List.replicate 64 3) :=
  (C2_protocol_sign (.signed ⟨0x22, List.range 16, 0, [1, 2], []⟩) rfl
    (fun _ _ => .ok (List.replicate 64 3)) (fun _ => none)).2.2.2
    (List.replicate 64 3) rfl (by decide)


/-- C7: Protocol.Verify fails unless the input is strictly longer than
66 bytes (2 framing bytes plus the 64-byte signature); otherwise it
passes the input minus its last 66 bytes as the signed body and the
last 64 bytes as the signature to the Verifier capability for the
resolved identity, returning that result. -/
theorem C7_protocol_verify (getUUID : UuidResolver) (verifier : Verifier)
    (name : String) (upp : Bytes) :
    (upp.length ≤ 66 →
      Protocol.Verify getUUID verifier name upp =
        (false, some "input not verifiable, not enough data")) ∧
    (66 < upp.length → ∀ id, getUUID name = .ok id →
      Protocol.Verify getUUID verifier name upp =
        verifier id (upp.take (upp.length - 66)) (upp.drop (upp.length - 64))) := by
  constructor
  · intro hle
    rw [Protocol.Verify, if_pos (by simpa [lenMsgpackSignatureElement, nistp256SignatureLength] using hle)]
  · intro hgt id hid
    rw [Protocol.Verify, if_neg (by simp [lenMsgpackSignatureElement, nistp256SignatureLength]; omega), hid]
    simp [lenMsgpackSignatureElement, nistp256SignatureLength]

theorem C7_protocol_verify_witness :
    Protocol.Verify (fun _ => .ok (List.range 16)) (fun _ _ _ => (true, none)) "a" (List.range 67) =
      (true, none) :=
  ((C7_protocol_verify (fun _ => .ok (List.range 16)) (fun _ _ _ => (true, none)) "a"
    (List.range 67)).2 (by simp) (List.range 16) rfl).trans rfl

/-- C10: two inputs of the same length over 66 bytes that differ only
in the two framing-prefix bytes at positions len-66 and len-65 give the
same Protocol.Verify result: the framing header bytes are never
inspected. -/
theorem C10_verify_ignores_framing (getUUID : UuidResolver) (verifier : Verifier)
    (name : String) (upp1 upp2 : Bytes) (hlen : upp1.length = upp2.length)
    (hgt : 66 < upp1.length)
    (hsame : ∀ i : Nat, i < upp1.length → i ≠ upp1.length - 66 → i ≠ upp1.length - 65 →
      upp1[i]? = upp2[i]?) :
    Protocol.Verify getUUID verifier name upp1 = Protocol.Verify getUUID verifier name upp2 := by
  have hout : ∀ i : Nat, upp1.length ≤ i → upp1[i]? = upp2[i]? := by
    intro i hi
    rw [List.getElem?_eq_none (by omega), List.getElem?_eq_none (by omega)]
  have htake : upp1.take (upp1.length - 66) = upp2.take (upp2.length - 66) := by
    apply List.ext_getElem?
    intro i
    rw [List.getElem?_take, List.getElem?_take]
    by_cases hi : i < upp1.length - 66
    · rw [if_pos hi, if_pos (by omega)]
      exact hsame i (by omega) (by omega) (by omega)
    · rw [if_neg hi, if_neg (by omega)]
  have hdrop : upp1.drop (upp1.length - 64) = upp2.drop (upp2.length - 64) := by
    apply List.ext_getElem?
    intro i
    rw [List.getElem?_drop, List.getElem?_drop, ← hlen]
    by_cases hi : upp1.length - 64 + i < upp1.length
    · exact hsame (upp1.length - 64 + i) hi (by omega) (by omega)
    · exact hout (upp1.length - 64 + i) (by omega)
  rw [Protocol.Verify, Protocol.Verify]
  rw [if_neg (by simp [lenMsgpackSignatureElement, nistp256SignatureLength]; omega),
    if_neg (by simp [lenMsgpackSignatureElement, nistp256SignatureLength]; omega)]
  cases hg : getUUID name with
  | error e => rfl
  | ok id =>
      simp only [lenMsgpackSignatureElement, nistp256SignatureLength, expectedHashSize]
      norm_num
      rw [htake, hdrop]


theorem C10_verify_ignores_framing_witness :
    Protocol.Verify (fun _ => .ok (List.range 16)) (fun _ _ _ => (true, none)) "a" (List.range 67) =
    Protocol.Verify (fun _ => .ok (List.range 16)) (fun _ _ _ => (true, none)) "a"
      (0 :: 100 :: 101 :: (List.range 67).drop 3) :=
  C10_verify_ignores_framing (fun _ => .ok (List.range 16)) (fun _ _ _ => (true, none)) "a"
    (List.range 67) (0 :: 100 :: 101 :: (List.range 67).drop 3)
    (by decide) (by decide) (by decide)

/-- C8: PrivateKeyExists returns true when the device query errors
(conservatively assuming a key exists), true with no error on exactly
one match, false with no error on zero matches, and true together with
a consistency error on two or more matches. -/
theorem C8_private_key_exists (getObjects : ObjectFinder) (id : Bytes) :
    (∀ e, getObjects id CKO_PRIVATE_KEY 5 = .error e →
      PrivateKeyExists getObjects id = (true, some ("getting object failed: " ++ e))) ∧
    (∀ objects, getObjects id CKO_PRIVATE_KEY 5 = .ok objects → objects.length = 1 →
      PrivateKeyExists getObjects id = (true, none)) ∧
    (∀ objects, getObjects id CKO_PRIVATE_KEY 5 = .ok objects → objects.length = 0 →
      PrivateKeyExists getObjects id = (false, none)) ∧
    (∀ objects, getObjects id CKO_PRIVATE_KEY 5 = .ok objects → 2 ≤ objects.length →
      PrivateKeyExists getObjects id =
        (true, some "found two or more private keys for the UUID, this should never happen")) := by
  refine ⟨fun e he => ?_, fun o ho h1 => ?_, fun o ho h0 => ?_, fun o ho h2 => ?_⟩
  · rw [PrivateKeyExists, he]
  · rw [PrivateKeyExists, ho]
    simp [h1]
  · rw [PrivateKeyExists, ho]
    simp [h0]
  · rw [PrivateKeyExists, ho]
    simp only []
    rw [if_neg (by omega), if_neg (by omega)]

theorem C8_private_key_exists_witness :
    PrivateKeyExists (fun _ _ _ => .ok [7, 8]) (List.range 16) =
      (true, some "found two or more private keys for the UUID, this should never happen") :=
  (C8_private_key_exists (fun _ _ _ => .ok [7, 8]) (List.range 16)).2.2.2 [7, 8] rfl (by decide)


theorem handler_class_ne_zero (c : Nat) (h : pkcs11HandleClass c ≠ .unknown) : c ≠ 0 := by
  intro h0
  rw [h0] at h
  exact h (by decide)

theorem handler_transient (c : Nat) (h : pkcs11HandleClass c = .transient) :
    pkcs11HandleGenericErrors c = (none, [.sleepWait]) := by
  rw [pkcs11HandleGenericErrors, if_neg (handler_class_ne_zero c (by rw [h]; decide)), h]

theorem handler_fatal (c : Nat) (h : pkcs11HandleClass c = .fatal) :
    pkcs11HandleGenericErrors c = (some (.pkcs11Err c), []) := by
  rw [pkcs11HandleGenericErrors, if_neg (handler_class_ne_zero c (by rw [h]; decide)), h]

theorem pkcs11RetryGo_transient_ok (f : Nat → Option GoError) :
    ∀ (n k budget : Nat), n ≤ budget →
    (∀ j, j < n → ∃ c, f (k + j) = some (.pkcs11Err c) ∧ pkcs11HandleClass c = .transient) →
    f (k + n) = none →
    pkcs11RetryGo f k budget = (.ok, List.replicate n .sleepWait) := by
  intro n
  induction n with
  | zero =>
      intro k budget _ _ hnone
      rw [Nat.add_zero] at hnone
      cases budget <;> simp [pkcs11RetryGo, hnone]
  | succ m ih =>
      intro k budget hle hfail hnone
      obtain ⟨b, rfl⟩ : ∃ b, budget = b + 1 := ⟨budget - 1, by omega⟩
      obtain ⟨c, hfc, hclass⟩ := hfail 0 (by omega)
      rw [Nat.add_zero] at hfc
      rw [pkcs11RetryGo, hfc]
      simp only []
      rw [handler_transient c hclass]
      simp only []
      rw [ih (k + 1) b (by omega)
        (fun j hj => by
          obtain ⟨c2, hc2, hcl2⟩ := hfail (j + 1) (by omega)
          exact ⟨c2, by rw [show k + 1 + j = k + (j + 1) by omega]; exact hc2, hcl2⟩)
        (by rw [show k + 1 + m = k + (m + 1) by omega]; exact hnone)]
      simp [List.replicate_succ]

theorem pkcs11RetryGo_exhaust (f : Nat → Option GoError) :
    ∀ (n k : Nat),
    (∀ j, j < n → ∃ c, f (k + j) = some (.pkcs11Err c) ∧ pkcs11HandleClass c = .transient) →
    ∀ err, f (k + n) = some err →
    pkcs11RetryGo f k n = (.gaveUp (k + n) err, List.replicate n .sleepWait) := by
  intro n
  induction n with
  | zero =>
      intro k _ err herr
      rw [Nat.add_zero] at herr ⊢
      simp [pkcs11RetryGo, herr]
  | succ m ih =>
      intro k hfail err herr
      obtain ⟨c, hfc, hclass⟩ := hfail 0 (by omega)
      rw [Nat.add_zero] at hfc
      rw [pkcs11RetryGo, hfc]
      simp only []
      rw [handler_transient c hclass]
      simp only []
      rw [ih (k + 1)
        (fun j hj => by
          obtain ⟨c2, hc2, hcl2⟩ := hfail (j + 1) (by omega)
          exact ⟨c2, by rw [show k + 1 + j = k + (j + 1) by omega]; exact hc2, hcl2⟩)
        err (by rw [show k + 1 + m = k + (m + 1) by omega]; exact herr)]
      rw [show k + 1 + m = k + (m + 1) by omega]
      simp [List.replicate_succ]

/-- C4: pkcs11Retry returns nil with no sleeps when the operation
first succeeds (also after transient failures within the bound); a
fatal-classified pkcs11 error aborts immediately with a wrapped error
and no sleep; failures persisting past the retry bound end in an
exhausted-retries error carrying the last underlying error; an error
that is not of the pkcs11 error type aborts immediately as a contract
violation.  (At the bound the budget check precedes classification, so
the exhausted error takes precedence there.) -/
theorem C4_pkcs11_retry (maxRetries : Nat) (f : Nat → Option GoError) :
    (f 0 = none → pkcs11Retry maxRetries f = (.ok, [])) ∧
    (∀ n, n ≤ maxRetries →
      (∀ j, j < n → ∃ c, f j = some (.pkcs11Err c) ∧ pkcs11HandleClass c = .transient) →
      f n = none →
      pkcs11Retry maxRetries f = (.ok, List.replicate n .sleepWait)) ∧
    (∀ c, 1 ≤ maxRetries → f 0 = some (.pkcs11Err c) → pkcs11HandleClass c = .fatal →
      pkcs11Retry maxRetries f = (.unfixable (.pkcs11Err c), [])) ∧
    ((∀ j, j < maxRetries → ∃ c, f j = some (.pkcs11Err c) ∧ pkcs11HandleClass c = .transient) →
      ∀ err, f maxRetries = some err →
      pkcs11Retry maxRetries f = (.gaveUp maxRetries err, List.replicate maxRetries .sleepWait)) ∧
    (∀ m, 1 ≤ maxRetries → f 0 = some (.otherErr m) →
      pkcs11Retry maxRetries f = (.nonPkcs11Contract, [])) := by
  refine ⟨fun h0 => ?_, fun n hn hfail hnone => ?_, fun c h1 hf hcl => ?_,
    fun hfail err herr => ?_, fun m h1 hf => ?_⟩
  · have := pkcs11RetryGo_transient_ok f 0 0 maxRetries (by omega) (by omega) (by simpa using h0)
    simpa [pkcs11Retry] using this
  · have := pkcs11RetryGo_transient_ok f n 0 maxRetries hn
      (fun j hj => by simpa using hfail j hj) (by simpa using hnone)
    simpa [pkcs11Retry] using this
  · obtain ⟨b, rfl⟩ : ∃ b, maxRetries = b + 1 := ⟨maxRetries - 1, by omega⟩
    rw [pkcs11Retry, pkcs11RetryGo, hf]
    simp only []
    rw [handler_fatal c hcl]
  · have := pkcs11RetryGo_exhaust f maxRetries 0
      (fun j hj => by simpa using hfail j hj) err (by simpa using herr)
    simpa [pkcs11Retry] using this
  · obtain ⟨b, rfl⟩ : ∃ b, maxRetries = b + 1 := ⟨maxRetries - 1, by omega⟩
    rw [pkcs11Retry, pkcs11RetryGo, hf]

theorem C4_pkcs11_retry_witness :
    pkcs11Retry 3 (fun k => if k < 2 then some (.pkcs11Err 0x30) else none) =
      (.ok, List.replicate 2 .sleepWait) ∧
    pkcs11Retry 3 (fun _ => some (.pkcs11Err 0xA0)) = (.unfixable (.pkcs11Err 0xA0), []) ∧
    pkcs11Retry 1 (fun _ => some (.pkcs11Err 0x30)) =
      (.gaveUp 1 (.pkcs11Err 0x30), List.replicate 1 .sleepWait) ∧
    pkcs11Retry 1 (fun _ => some (.otherErr "oops")) = (.nonPkcs11Contract, []) :=
  ⟨(C4_pkcs11_retry 3 (fun k => if k < 2 then some (.pkcs11Err 0x30) else none)).2.1 2
      (by omega) (fun j hj => ⟨0x30, by interval_cases j <;> simp, by decide⟩) (by simp),
   (C4_pkcs11_retry 3 (fun _ => some (.pkcs11Err 0xA0))).2.2.1 0xA0 (by omega) rfl (by decide),
   (C4_pkcs11_retry 1 (fun _ => some (.pkcs11Err 0x30))).2.2.2.1
      (fun j hj => ⟨0x30, rfl, by decide⟩) (.pkcs11Err 0x30) rfl,
   (C4_pkcs11_retry 1 (fun _ => some (.otherErr "oops"))).2.2.2.2 "oops" (by omega) rfl⟩


theorem protocol_sign_ok (signer : Signer) (st : SigMap) (upp : UPP) (sig : Bytes)
    (hs : signer upp.GetUuid (Encode upp).dropLast = .ok sig) (hlen : sig.length = 64) :
    Protocol.sign signer st upp =
      (.ok ((Encode upp).dropLast ++ 0xC4 :: 0x40 :: sig),
        if upp.GetVersion = 0x23 then st.insert upp.GetUuid sig else st) := by
  have hne : sig ≠ [] := by intro hc; rw [hc] at hlen; simp at hlen
  rw [Protocol.sign]
  simp only [hs]
  rw [if_neg (by simp [nistp256SignatureLength, hlen])]
  rw [appendSignature, if_neg (by simp [encode_dropLast_ne_nil upp, hne])]
  simp [hlen]

theorem protocol_sign_spec (signer : Signer) (st : SigMap) (upp : UPP) :
    ((∃ e, (Protocol.sign signer st upp).1 = .error e) ∧ (Protocol.sign signer st upp).2 = st) ∨
    (∃ sig, sig.length = 64 ∧ signer upp.GetUuid (Encode upp).dropLast = .ok sig ∧
      (Protocol.sign signer st upp).1 = .ok ((Encode upp).dropLast ++ 0xC4 :: 0x40 :: sig) ∧
      (Protocol.sign signer st upp).2 =
        (if upp.GetVersion = 0x23 then st.insert upp.GetUuid sig else st)) := by
  cases hs : signer upp.GetUuid (Encode upp).dropLast with
  | error e =>
      left
      constructor
      · exact ⟨e, by rw [Protocol.sign]; simp only [hs]⟩
      · rw [Protocol.sign]; simp only [hs]
  | ok sig =>
      by_cases hlen : sig.length = 64
      · right
        refine ⟨sig, hlen, rfl, ?_, ?_⟩ <;> rw [protocol_sign_ok signer st upp sig hs hlen]
      · left
        constructor
        · refine ⟨"generated signature has invalid length", ?_⟩
          rw [Protocol.sign]
          simp only [hs]
          rw [if_pos (by simpa [nistp256SignatureLength] using hlen)]
        · rw [Protocol.sign]
          simp only [hs]
          rw [if_pos (by simpa [nistp256SignatureLength] using hlen)]

theorem drop_last64 (body sig : Bytes) (h : sig.length = 64) :
    (body ++ 0xC4 :: 0x40 :: sig).drop ((body ++ 0xC4 :: 0x40 :: sig).length - 64) = sig := by
  have e : body ++ 0xC4 :: 0x40 :: sig = (body ++ [0xC4, 0x40]) ++ sig := by simp
  rw [e]
  have hl : ((body ++ [0xC4, 0x40]) ++ sig).length - 64 = (body ++ [0xC4, 0x40]).length := by
    simp [h]
  rw [hl]
  exact List.drop_left _ _

theorem encode_splice_chained (u : ChainedUPP) (sig : Bytes) (hsig0 : u.Signature = [])
    (hne : sig ≠ []) (hlen : sig.length = 64) :
    (Encode (.chained u)).dropLast ++ 0xC4 :: 0x40 :: sig =
      Encode (.chained { u with Signature := sig }) := by
  have e1 : Encode (.chained u) = (0x96 :: (msgpUint8 u.Version ++ msgpBin u.Uuid ++
      msgpNilableBin u.PrevSignature ++ msgpUint8 u.Hint ++ msgpNilableBin u.Payload)) ++ [0xC0] := by
    simp [Encode, hsig0, msgpNilableBin, List.append_assoc]
  have e2 : Encode (.chained { u with Signature := sig }) =
      (0x96 :: (msgpUint8 u.Version ++ msgpBin u.Uuid ++ msgpNilableBin u.PrevSignature ++
        msgpUint8 u.Hint ++ msgpNilableBin u.Payload)) ++ 0xC4 :: 0x40 :: sig := by
    simp [Encode, msgpNilableBin, hne, msgpBin, hlen, List.append_assoc]
  rw [e1, List.dropLast_concat, e2]


theorem she_genesis (getUUID : UuidResolver) (signer : Signer) (st : SigMap)
    (name : String) (hint : Nat) (hash id sig : Bytes)
    (hh : hash.length = 32) (hg : getUUID name = .ok id) (hst : st id = none)
    (hsig : signer id
      (Encode (.chained ⟨0x23, id, List.replicate 64 0, hint, hash, []⟩)).dropLast = .ok sig)
    (hlen : sig.length = 64) :
    Protocol.SignHashExtended getUUID signer st name hash 0x23 hint =
      (.ok ((Encode (.chained ⟨0x23, id, List.replicate 64 0, hint, hash, []⟩)).dropLast ++
        0xC4 :: 0x40 :: sig), st.insert id sig) := by
  rw [Protocol.SignHashExtended, if_neg (by simp [expectedHashSize, hh]), hg]
  simp only []
  norm_num
  rw [hst]
  simp only [nistp256SignatureLength]
  rw [protocol_sign_ok signer st
    (.chained ⟨0x23, id, List.replicate 64 0, hint, hash, []⟩) sig hsig hlen]
  simp [UPP.GetVersion, UPP.GetUuid]

theorem she_step (getUUID : UuidResolver) (signer : Signer) (st : SigMap)
    (name : String) (hint : Nat) (hash id prev sig : Bytes)
    (hh : hash.length = 32) (hg : getUUID name = .ok id)
    (hst : st id = some prev) (hplen : prev.length = 64)
    (hsig : signer id
      (Encode (.chained ⟨0x23, id, prev, hint, hash, []⟩)).dropLast = .ok sig)
    (hlen : sig.length = 64) :
    Protocol.SignHashExtended getUUID signer st name hash 0x23 hint =
      (.ok ((Encode (.chained ⟨0x23, id, prev, hint, hash, []⟩)).dropLast ++
        0xC4 :: 0x40 :: sig), st.insert id sig) := by
  rw [Protocol.SignHashExtended, if_neg (by simp [expectedHashSize, hh]), hg]
  simp only []
  norm_num
  rw [hst]
  simp only [nistp256SignatureLength]
  rw [if_pos hplen]
  rw [protocol_sign_ok signer st
    (.chained ⟨0x23, id, prev, hint, hash, []⟩) sig hsig hlen]
  simp [UPP.GetVersion, UPP.GetUuid]

theorem decode_signed_chain_output (id prev hash sig : Bytes) (hint : Nat)
    (hid16 : id.length = 16) (hprev : prev.length < 4294967296)
    (hh : hash.length < 4294967296) (hlen : sig.length = 64) :
    Decode ((Encode (.chained ⟨0x23, id, prev, hint, hash, []⟩)).dropLast ++
        0xC4 :: 0x40 :: sig) =
      .ok (.chained ⟨0x23, id, prev, hint, hash, sig⟩) := by
  have hne : sig ≠ [] := by intro hc; rw [hc] at hlen; simp at hlen
  rw [encode_splice_chained _ sig rfl hne hlen]
  exact Decode_Encode_chained ⟨0x23, id, prev, hint, hash, sig⟩ rfl hid16
    (by show prev.length < 4294967296; omega)
    (by show hash.length < 4294967296; omega)
    (by show sig.length < 4294967296; omega)

/-- C3: SignHashExtended fails on a hash that is not 32 bytes and on a
version other than Signed (0x22) or Chained (0x23); for Chained, an
absent chain-state entry yields a packet whose previous signature is 64
zero bytes, a present entry of wrong length is an error, and a second
chained call uses the first call signature as the previous signature
(the decoded outputs witness the built packets). -/
theorem C3_sign_hash_extended (getUUID : UuidResolver) (signer : Signer) (st : SigMap)
    (name : String) (hint : Nat) :
    (∀ hash protocol, hash.length ≠ 32 →
      Protocol.SignHashExtended getUUID signer st name hash protocol hint =
        (.error "invalid hash size", st)) ∧
    (∀ hash protocol id, hash.length = 32 → getUUID name = .ok id →
      protocol ≠ 0x22 → protocol ≠ 0x23 →
      Protocol.SignHashExtended getUUID signer st name hash protocol hint =
        (.error "invalid protocol version", st)) ∧
    (∀ hash id prev, hash.length = 32 → getUUID name = .ok id →
      st id = some prev → prev.length ≠ 64 →
      Protocol.SignHashExtended getUUID signer st name hash 0x23 hint =
        (.error "invalid last signature, cannot create chained UPP", st)) ∧
    (∀ hash id sig, hash.length = 32 → getUUID name = .ok id → id.length = 16 →
      st id = none →
      signer id (Encode (.chained ⟨0x23, id, List.replicate 64 0, hint, hash, []⟩)).dropLast =
        .ok sig →
      sig.length = 64 →
      Protocol.SignHashExtended getUUID signer st name hash 0x23 hint =
        (.ok ((Encode (.chained ⟨0x23, id, List.replicate 64 0, hint, hash, []⟩)).dropLast ++
          0xC4 :: 0x40 :: sig), st.insert id sig) ∧
      Decode ((Encode (.chained ⟨0x23, id, List.replicate 64 0, hint, hash, []⟩)).dropLast ++
          0xC4 :: 0x40 :: sig) =
        .ok (.chained ⟨0x23, id, List.replicate 64 0, hint, hash, sig⟩)) ∧
    (∀ hash1 hash2 id sig1 sig2, hash1.length = 32 → hash2.length = 32 →
      getUUID name = .ok id → id.length = 16 → st id = none →
      signer id (Encode (.chained ⟨0x23, id, List.replicate 64 0, hint, hash1, []⟩)).dropLast =
        .ok sig1 →
      sig1.length = 64 →
      signer id (Encode (.chained ⟨0x23, id, sig1, hint, hash2, []⟩)).dropLast = .ok sig2 →
      sig2.length = 64 →
      Protocol.SignHashExtended getUUID signer
          (Protocol.SignHashExtended getUUID signer st name hash1 0x23 hint).2
          name hash2 0x23 hint =
        (.ok ((Encode (.chained ⟨0x23, id, sig1, hint, hash2, []⟩)).dropLast ++
          0xC4 :: 0x40 :: sig2), (st.insert id sig1).insert id sig2) ∧
      Decode ((Encode (.chained ⟨0x23, id, sig1, hint, hash2, []⟩)).dropLast ++
          0xC4 :: 0x40 :: sig2) =
        .ok (.chained ⟨0x23, id, sig1, hint, hash2, sig2⟩)) := by
  refine ⟨fun hash protocol hh => ?_, fun hash protocol id hh hg h22 h23 => ?_,
    fun hash id prev hh hg hst hplen => ?_, fun hash id sig hh hg hid16 hst hsig hlen => ?_,
    fun hash1 hash2 id sig1 sig2 hh1 hh2 hg hid16 hst hsig1 hlen1 hsig2 hlen2 => ?_⟩
  · rw [Protocol.SignHashExtended, if_pos (by simp [expectedHashSize, hh])]
  · rw [Protocol.SignHashExtended, if_neg (by simp [expectedHashSize, hh]), hg]
    simp only []
    rw [if_neg h22, if_neg h23]
  · rw [Protocol.SignHashExtended, if_neg (by simp [expectedHashSize, hh]), hg]
    simp only []
    norm_num
    rw [hst]
    simp only [nistp256SignatureLength]
    rw [if_neg hplen]
  · exact ⟨she_genesis getUUID signer st name hint hash id sig hh hg hst hsig hlen,
      decode_signed_chain_output id (List.replicate 64 0) hash sig hint hid16
        (by simp) (by omega) hlen⟩
  · constructor
    · rw [she_genesis getUUID signer st name hint hash1 id sig1 hh1 hg hst hsig1 hlen1]
      exact she_step getUUID signer (st.insert id sig1) name hint hash2 id sig1 sig2 hh2 hg
        (by simp [SigMap.insert]) hlen1 hsig2 hlen2
    · exact decode_signed_chain_output id sig1 hash2 sig2 hint hid16 (by omega) (by omega) hlen2


theorem C3_sign_hash_extended_witness :
    Protocol.SignHashExtended (fun _ => .ok (List.range 16))
        (fun _ _ => .ok (List.replicate 64 5)) (fun _ => none) "a"
        (List.replicate 32 1) 0x23 0 =
      (.ok ((Encode (.chained ⟨0x23, List.range 16, List.replicate 64 0, 0,
          List.replicate 32 1, []⟩)).dropLast ++ 0xC4 :: 0x40 :: List.replicate 64 5),
        SigMap.insert (fun _ => none) (List.range 16) (List.replicate 64 5)) ∧
    Decode ((Encode (.chained ⟨0x23, List.range 16, List.replicate 64 0, 0,
        List.replicate 32 1, []⟩)).dropLast ++ 0xC4 :: 0x40 :: List.replicate 64 5) =
      .ok (.chained ⟨0x23, List.range 16, List.replicate 64 0, 0, List.replicate 32 1,
        List.replicate 64 5⟩) :=
  (C3_sign_hash_extended (fun _ => .ok (List.range 16))
    (fun _ _ => .ok (List.replicate 64 5)) (fun _ => none) "a" 0).2.2.2.1
    (List.replicate 32 1) (List.range 16) (List.replicate 64 5)
    (by decide) rfl (by decide) rfl rfl (by decide)

theorem she_spec (getUUID : UuidResolver) (signer : Signer) (st : SigMap)
    (name : String) (hash : Bytes) (protocol hint : Nat) :
    ((∃ e, (Protocol.SignHashExtended getUUID signer st name hash protocol hint).1 = .error e) ∧
      (Protocol.SignHashExtended getUUID signer st name hash protocol hint).2 = st) ∨
    (∃ id upp sig, getUUID name = .ok id ∧ upp.GetUuid = id ∧ upp.GetVersion = protocol ∧
      (protocol = 0x22 ∨ protocol = 0x23) ∧ sig.length = 64 ∧
      (Protocol.SignHashExtended getUUID signer st name hash protocol hint).1 =
        .ok ((Encode upp).dropLast ++ 0xC4 :: 0x40 :: sig) ∧
      (Protocol.SignHashExtended getUUID signer st name hash protocol hint).2 =
        (if protocol = 0x23 then st.insert id sig else st)) := by
  by_cases hh : hash.length = 32
  case neg =>
    left
    rw [Protocol.SignHashExtended, if_pos (by simp [expectedHashSize, hh])]
    exact ⟨⟨_, rfl⟩, rfl⟩
  case pos =>
  cases hg : getUUID name with
  | error e =>
      left
      rw [Protocol.SignHashExtended, if_neg (by simp [expectedHashSize, hh]), hg]
      exact ⟨⟨e, rfl⟩, rfl⟩
  | ok id =>
      by_cases h22 : protocol = 0x22
      · subst h22
        have he : Protocol.SignHashExtended getUUID signer st name hash 0x22 hint =
            Protocol.sign signer st (.signed ⟨0x22, id, hint, hash, []⟩) := by
          rw [Protocol.SignHashExtended, if_neg (by simp [expectedHashSize, hh]), hg]
          simp only []
          norm_num
        rcases protocol_sign_spec signer st (.signed ⟨0x22, id, hint, hash, []⟩) with
          ⟨⟨e, he1⟩, he2⟩ | ⟨sig, hlen, _, hok, hsnd⟩
        · left
          rw [he]
          exact ⟨⟨e, he1⟩, he2⟩
        · right
          refine ⟨id, .signed ⟨0x22, id, hint, hash, []⟩, sig, rfl, rfl, rfl, Or.inl rfl,
            hlen, ?_, ?_⟩
          · rw [he]; exact hok
          · rw [he, hsnd]
            simp [UPP.GetVersion]
      · by_cases h23 : protocol = 0x23
        · subst h23
          cases hst : st id with
          | none =>
              have he : Protocol.SignHashExtended getUUID signer st name hash 0x23 hint =
                  Protocol.sign signer st
                    (.chained ⟨0x23, id, List.replicate 64 0, hint, hash, []⟩) := by
                rw [Protocol.SignHashExtended, if_neg (by simp [expectedHashSize, hh]), hg]
                simp only []
                norm_num
                rw [hst]
                simp only [nistp256SignatureLength]
              rcases protocol_sign_spec signer st
                  (.chained ⟨0x23, id, List.replicate 64 0, hint, hash, []⟩) with
                ⟨⟨e, he1⟩, he2⟩ | ⟨sig, hlen, _, hok, hsnd⟩
              · left
                rw [he]
                exact ⟨⟨e, he1⟩, he2⟩
              · right
                refine ⟨id, .chained ⟨0x23, id, List.replicate 64 0, hint, hash, []⟩, sig,
                  rfl, rfl, rfl, Or.inr rfl, hlen, ?_, ?_⟩
                · rw [he]; exact hok
                · rw [he, hsnd]
                  simp [UPP.GetVersion, UPP.GetUuid]
          | some prev =>
              by_cases hplen : prev.length = 64
              · have he : Protocol.SignHashExtended getUUID signer st name hash 0x23 hint =
                    Protocol.sign signer st (.chained ⟨0x23, id, prev, hint, hash, []⟩) := by
                  rw [Protocol.SignHashExtended, if_neg (by simp [expectedHashSize, hh]), hg]
                  simp only []
                  norm_num
                  rw [hst]
                  simp only [nistp256SignatureLength]
                  rw [if_pos hplen]
                rcases protocol_sign_spec signer st
                    (.chained ⟨0x23, id, prev, hint, hash, []⟩) with
                  ⟨⟨e, he1⟩, he2⟩ | ⟨sig, hlen, _, hok, hsnd⟩
                · left
                  rw [he]
                  exact ⟨⟨e, he1⟩, he2⟩
                · right
                  refine ⟨id, .chained ⟨0x23, id, prev, hint, hash, []⟩, sig, rfl, rfl, rfl,
                    Or.inr rfl, hlen, ?_, ?_⟩
                  · rw [he]; exact hok
                  · rw [he, hsnd]
                    simp [UPP.GetVersion, UPP.GetUuid]
              · left
                rw [Protocol.SignHashExtended, if_neg (by simp [expectedHashSize, hh]), hg]
                simp only []
                norm_num
                rw [hst]
                simp only [nistp256SignatureLength]
                rw [if_neg hplen]
                exact ⟨⟨_, rfl⟩, rfl⟩
        · left
          rw [Protocol.SignHashExtended, if_neg (by simp [expectedHashSize, hh]), hg]
          simp only []
          rw [if_neg h22, if_neg h23]
          exact ⟨⟨_, rfl⟩, rfl⟩


/-- C9: a SignHashExtended call that returns an error leaves the
Signatures chain-state map unchanged; a successful Signed call leaves
it unchanged; a successful call changes no entry other than the
resolved identity; and a successful Chained call stores exactly the
trailing 64 signature bytes of the returned packet under that
identity. -/
theorem C9_chain_state_isolation (getUUID : UuidResolver) (signer : Signer) (st : SigMap)
    (name : String) (hash : Bytes) (protocol hint : Nat) :
    (∀ e, (Protocol.SignHashExtended getUUID signer st name hash protocol hint).1 = .error e →
      ∀ u, (Protocol.SignHashExtended getUUID signer st name hash protocol hint).2 u = st u) ∧
    (∀ out, (Protocol.SignHashExtended getUUID signer st name hash protocol hint).1 = .ok out →
      protocol = 0x22 →
      ∀ u, (Protocol.SignHashExtended getUUID signer st name hash protocol hint).2 u = st u) ∧
    (∀ out id, (Protocol.SignHashExtended getUUID signer st name hash protocol hint).1 = .ok out →
      getUUID name = .ok id →
      ∀ u, u ≠ id →
      (Protocol.SignHashExtended getUUID signer st name hash protocol hint).2 u = st u) ∧
    (∀ out id, (Protocol.SignHashExtended getUUID signer st name hash protocol hint).1 = .ok out →
      getUUID name = .ok id → protocol = 0x23 →
      (Protocol.SignHashExtended getUUID signer st name hash protocol hint).2 id =
        some (out.drop (out.length - 64))) := by
  rcases she_spec getUUID signer st name hash protocol hint with
    ⟨⟨e0, herr⟩, hsnd⟩ | ⟨id0, upp, sig, hg0, huuid, hver, hpv, hlen, hok, hsnd⟩
  · refine ⟨fun e he u => by rw [hsnd], fun out hok2 h22 u => ?_, fun out id hok2 hg2 u hne => ?_,
      fun out id hok2 hg2 hp23 => ?_⟩
    · rw [herr] at hok2; exact Except.noConfusion hok2
    · rw [hsnd]
    · rw [herr] at hok2; exact Except.noConfusion hok2
  · have hout : ∀ out, (Protocol.SignHashExtended getUUID signer st name hash protocol hint).1 =
        .ok out → out = (Encode upp).dropLast ++ 0xC4 :: 0x40 :: sig := by
      intro out hok2
      rw [hok] at hok2
      exact (Except.ok.inj hok2).symm
    refine ⟨fun e he u => ?_, fun out hok2 h22 u => ?_, fun out id hok2 hg2 u hne => ?_,
      fun out id hok2 hg2 hp23 => ?_⟩
    · rw [hok] at he; exact Except.noConfusion he
    · rw [hsnd, if_neg (by rw [h22]; decide)]
    · have hid : id0 = id := Except.ok.inj (hg0.symm.trans hg2)
      rw [hsnd]
      by_cases hpc : protocol = 0x23
      · rw [if_pos hpc]
        simp only [SigMap.insert]
        rw [if_neg (by rw [hid]; exact hne)]
      · rw [if_neg hpc]
    · have hid : id0 = id := Except.ok.inj (hg0.symm.trans hg2)
      rw [hsnd, if_pos hp23]
      simp only [SigMap.insert]
      rw [if_pos hid.symm, hout out hok2, drop_last64 _ sig hlen]

theorem C9_chain_state_isolation_witness :
    (Protocol.SignHashExtended (fun _ => .ok (List.range 16))
        (fun _ _ => .ok (List.replicate 64 5)) (fun _ => none) "a"
        (List.replicate 32 1) 0x23 0).2 (List.range 16) =
      some (((Protocol.SignHashExtended (fun _ => .ok (List.range 16))
        (fun _ _ => .ok (List.replicate 64 5)) (fun _ => none) "a"
        (List.replicate 32 1) 0x23 0).1.toOption.getD []).drop
          (((Protocol.SignHashExtended (fun _ => .ok (List.range 16))
        (fun _ _ => .ok (List.replicate 64 5)) (fun _ => none) "a"
        (List.replicate 32 1) 0x23 0).1.toOption.getD []).length - 64)) := by
  have h := (C9_chain_state_isolation (fun _ => .ok (List.range 16))
    (fun _ _ => .ok (List.replicate 64 5)) (fun _ => none) "a"
    (List.replicate 32 1) 0x23 0).2.2.2
  have hfst := (she_genesis (fun _ => .ok (List.range 16))
    (fun _ _ => .ok (List.replicate 64 5)) (fun _ => none) "a" 0
    (List.replicate 32 1) (List.range 16) (List.replicate 64 5)
    (by decide) rfl rfl rfl (by decide))
  have h1 : (Protocol.SignHashExtended (fun _ => .ok (List.range 16))
      (fun _ _ => .ok (List.replicate 64 5)) (fun _ => none) "a"
      (List.replicate 32 1) 0x23 0).1 =
      .ok ((Encode (.chained ⟨0x23, List.range 16, List.replicate 64 0, 0,
        List.replicate 32 1, []⟩)).dropLast ++ 0xC4 :: 0x40 :: List.replicate 64 5) := by
    rw [hfst]
  have h2 := h _ (List.range 16) h1 rfl rfl
  rw [h2, h1]
  rfl


theorem privkey_exists_of_ok_nil (getObjects : ObjectFinder) (id : Bytes)
    (h : getObjects id CKO_PRIVATE_KEY 5 = .ok []) :
    PrivateKeyExists getObjects id = (false, none) := by
  rw [PrivateKeyExists, h]
  simp

theorem pubkey_exists_of_ok_nil (getObjects : ObjectFinder) (id : Bytes)
    (h : getObjects id CKO_PUBLIC_KEY 5 = .ok []) :
    PublicKeyExists getObjects id = (false, none) := by
  rw [PublicKeyExists, h]
  simp

/-- C5 (amended): SetKey succeeds exactly when the scalar is 32 bytes,
the id is not the nil UUID, no private or public key object exists for
the id (and the existence queries succeed), the scalar is less than the
curve order (a zero scalar is not rejected), and both device creates
succeed; only then are the derived public key object and the private
key object written, in that order. -/
theorem C5_set_key (getObjects : ObjectFinder) (createObject : ObjectCreator)
    (id privKeyBytes : Bytes) :
    ((SetKey getObjects createObject id privKeyBytes).1 = .ok () ↔
      (privKeyBytes.length = 32 ∧ id ≠ uuidNil ∧
        getObjects id CKO_PRIVATE_KEY 5 = .ok [] ∧ getObjects id CKO_PUBLIC_KEY 5 = .ok [] ∧
        natFromBytesBE privKeyBytes < p256N ∧ createObject 0 = none ∧ createObject 1 = none)) ∧
    ((SetKey getObjects createObject id privKeyBytes).1 = .ok () →
      (SetKey getObjects createObject id privKeyBytes).2 =
        [.pubKeyObj id (0x04 :: 65 :: 0x04 ::
            (natToBytesBE 32 (scalarBaseMult (natFromBytesBE privKeyBytes)).1 ++
             natToBytesBE 32 (scalarBaseMult (natFromBytesBE privKeyBytes)).2)),
         .privKeyObj id (natToBytesBE 32 (natFromBytesBE privKeyBytes))]) ∧
    ((SetKey getObjects createObject id privKeyBytes).2 ≠ [] →
      (privKeyBytes.length = 32 ∧ id ≠ uuidNil ∧
        getObjects id CKO_PRIVATE_KEY 5 = .ok [] ∧ getObjects id CKO_PUBLIC_KEY 5 = .ok [] ∧
        natFromBytesBE privKeyBytes < p256N ∧ createObject 0 = none)) := by
  by_cases hlen : privKeyBytes.length = 32
  case neg =>
    have he : SetKey getObjects createObject id privKeyBytes =
        (.error "unexpected length for ECDSA private key", []) := by
      rw [SetKey, if_pos (by simpa using hlen)]
    rw [he]
    refine ⟨⟨fun h => by simp at h, fun h => absurd h.1 hlen⟩, fun h => by simp at h,
      fun h => by simp at h⟩
  case pos =>
  by_cases hnil : id = uuidNil
  case pos =>
    have he : SetKey getObjects createObject id privKeyBytes = (.error "UUID Nil-value", []) := by
      rw [SetKey, if_neg (by simpa using hlen), if_pos hnil]
    rw [he]
    refine ⟨⟨fun h => by simp at h, fun h => absurd hnil h.2.1⟩, fun h => by simp at h,
      fun h => by simp at h⟩
  case neg =>
  cases hq1 : getObjects id CKO_PRIVATE_KEY 5 with
  | error e =>
      have hpk : PrivateKeyExists getObjects id =
          (true, some ("getting object failed: " ++ e)) := by
        rw [PrivateKeyExists, hq1]
      have he : SetKey getObjects createObject id privKeyBytes =
          (.error ("SetKey: checking for private key existence failed: " ++
            ("getting object failed: " ++ e)), []) := by
        rw [SetKey, if_neg (by simpa using hlen), if_neg hnil, hpk]
      rw [he]
      refine ⟨⟨fun h => by simp at h, fun h => Except.noConfusion h.2.2.1⟩,
        fun h => by simp at h, fun h => by simp at h⟩
  | ok l =>
      by_cases hl : l = []
      case neg =>
        have hpk : ∃ msg, PrivateKeyExists getObjects id = (true, msg) := by
          rw [PrivateKeyExists, hq1]
          by_cases h1 : l.length = 1
          · exact ⟨none, by simp [h1]⟩
          · have h2 : ¬ l.length = 0 := by
              intro hc; exact hl (List.length_eq_zero.mp hc)
            exact ⟨some "found two or more private keys for the UUID, this should never happen",
              by simp [h1, h2]⟩
        obtain ⟨msg, hpk⟩ := hpk
        have he : ∃ err, SetKey getObjects createObject id privKeyBytes = (.error err, []) := by
          cases msg with
          | none =>
              exact ⟨"SetKey: private key already exists",
                by rw [SetKey, if_neg (by simpa using hlen), if_neg hnil, hpk]⟩
          | some m =>
              exact ⟨"SetKey: checking for private key existence failed: " ++ m,
                by rw [SetKey, if_neg (by simpa using hlen), if_neg hnil, hpk]⟩
        obtain ⟨err, he⟩ := he
        rw [he]
        refine ⟨⟨fun h => by simp at h, fun h => absurd (Except.ok.inj h.2.2.1) hl⟩,
          fun h => by simp at h, fun h => by simp at h⟩
      case pos =>
      subst hl
      have hpk := privkey_exists_of_ok_nil getObjects id hq1
      cases hq2 : getObjects id CKO_PUBLIC_KEY 5 with
      | error e =>
          have hpub : PublicKeyExists getObjects id = (true, some e) := by
            rw [PublicKeyExists, hq2]
          have he : SetKey getObjects createObject id privKeyBytes =
              (.error ("SetKey: checking public key existence failed: " ++ e), []) := by
            rw [SetKey, if_neg (by simpa using hlen), if_neg hnil, hpk]
            simp only []
            rw [hpub]
          rw [he]
          refine ⟨⟨fun h => by simp at h, fun h => Except.noConfusion h.2.2.2.1⟩,
            fun h => by simp at h, fun h => by simp at h⟩
      | ok l2 =>
          by_cases hl2 : l2 = []
          case neg =>
            have hpub : ∃ msg, PublicKeyExists getObjects id = (true, msg) := by
              rw [PublicKeyExists, hq2]
              by_cases h1 : l2.length = 1
              · exact ⟨none, by simp [h1]⟩
              · have h2 : ¬ l2.length = 0 := by
                  intro hc; exact hl2 (List.length_eq_zero.mp hc)
                exact ⟨some "found two or more public keys for the UUID, this should never happen",
                  by simp [h1, h2]⟩
            obtain ⟨msg, hpub⟩ := hpub
            have he : ∃ err, SetKey getObjects createObject id privKeyBytes =
                (.error err, []) := by
              cases msg with
              | none =>
                  refine ⟨"SetKey: public key already exists", ?_⟩
                  rw [SetKey, if_neg (by simpa using hlen), if_neg hnil, hpk]
                  simp only []
                  rw [hpub]
              | some m =>
                  refine ⟨"SetKey: checking public key existence failed: " ++ m, ?_⟩
                  rw [SetKey, if_neg (by simpa using hlen), if_neg hnil, hpk]
                  simp only []
                  rw [hpub]
            obtain ⟨err, he⟩ := he
            rw [he]
            refine ⟨⟨fun h => by simp at h, fun h => absurd (Except.ok.inj h.2.2.2.1) hl2⟩,
              fun h => by simp at h, fun h => by simp at h⟩
          case pos =>
          subst hl2
          have hpub := pubkey_exists_of_ok_nil getObjects id hq2
          by_cases hd : p256N ≤ natFromBytesBE privKeyBytes
          case pos =>
            have he : SetKey getObjects createObject id privKeyBytes =
                (.error "SetKey: invalid private key value: value is greater or equal curve order",
                  []) := by
              rw [SetKey, if_neg (by simpa using hlen), if_neg hnil, hpk]
              simp only []
              rw [hpub]
              simp only []
              rw [if_pos hd]
            rw [he]
            refine ⟨⟨fun h => by simp at h, fun h => by omega⟩, fun h => by simp at h,
              fun h => by simp at h⟩
          case neg =>
          cases hc0 : createObject 0 with
          | some e =>
              have he : SetKey getObjects createObject id privKeyBytes =
                  (.error ("SetKey: failed to set public key: " ++ e), []) := by
                rw [SetKey, if_neg (by simpa using hlen), if_neg hnil, hpk]
                simp only []
                rw [hpub]
                simp only []
                rw [if_neg hd, hc0]
              rw [he]
              refine ⟨⟨fun h => by simp at h, fun h => Option.noConfusion h.2.2.2.2.2.1⟩,
                fun h => by simp at h, fun h => by simp at h⟩
          | none =>
              cases hc1 : createObject 1 with
              | some e =>
                  have he : SetKey getObjects createObject id privKeyBytes =
                      (.error ("SetKey: failed to set private key: " ++ e),
                        [.pubKeyObj id (0x04 :: 65 :: 0x04 ::
                          (natToBytesBE 32 (scalarBaseMult (natFromBytesBE privKeyBytes)).1 ++
                           natToBytesBE 32 (scalarBaseMult (natFromBytesBE privKeyBytes)).2))]) := by
                    rw [SetKey, if_neg (by simpa using hlen), if_neg hnil, hpk]
                    simp only []
                    rw [hpub]
                    simp only []
                    rw [if_neg hd, hc0]
                    simp only []
                    rw [hc1]
                    rfl
                  rw [he]
                  refine ⟨⟨fun h => by simp at h, fun h => Option.noConfusion h.2.2.2.2.2.2⟩,
                    fun h => by simp at h,
                    fun h => ⟨hlen, hnil, rfl, rfl, by omega, rfl⟩⟩
              | none =>
                  have he : SetKey getObjects createObject id privKeyBytes =
                      (.ok (),
                        [.pubKeyObj id (0x04 :: 65 :: 0x04 ::
                          (natToBytesBE 32 (scalarBaseMult (natFromBytesBE privKeyBytes)).1 ++
                           natToBytesBE 32 (scalarBaseMult (natFromBytesBE privKeyBytes)).2)),
                         .privKeyObj id (natToBytesBE 32 (natFromBytesBE privKeyBytes))]) := by
                    rw [SetKey, if_neg (by simpa using hlen), if_neg hnil, hpk]
                    simp only []
                    rw [hpub]
                    simp only []
                    rw [if_neg hd, hc0]
                    simp only []
                    rw [hc1]
                    rfl
                  rw [he]
                  exact ⟨⟨fun _ => ⟨hlen, hnil, rfl, rfl, by omega, rfl, rfl⟩, fun _ => rfl⟩,
                    fun _ => rfl, fun _ => ⟨hlen, hnil, rfl, rfl, by omega, rfl⟩⟩

/-- a concrete successful SetKey run exercising the amended C5
characterization, with scalar value 1. -/
theorem C5_set_key_witness :
    (SetKey (fun _ _ _ => .ok []) (fun _ => none) (1 :: List.replicate 15 0)
      (List.replicate 31 0 ++ [1])).1 = .ok () :=
  (C5_set_key (fun _ _ _ => .ok []) (fun _ => none) (1 :: List.replicate 15 0)
    (List.replicate 31 0 ++ [1])).1.mpr
    ⟨by decide, by decide, rfl, rfl, by decide, rfl, rfl⟩

/-- C5 counterexample to the claim as stated: with a zero scalar (which
is not a valid private key, being not nonzero), a non-nil id, no
existing keys and a working device, SetKey succeeds instead of
failing — the source only rejects scalars greater or equal the curve
order. -/
theorem C5_set_key_zero_scalar_counterexample :
    natFromBytesBE (List.replicate 32 0) = 0 ∧
    (SetKey (fun _ _ _ => .ok []) (fun _ => none) (1 :: List.replicate 15 0)
      (List.replicate 32 0)).1 = .ok () :=
  ⟨by decide, rfl⟩

end Ubirch
